import Mathlib

/-!
Verification development for the modelgate repository (TypeScript).

The TypeScript source is shallowly embedded: pure functions become Lean
functions over `ℚ` (JS numbers; every arithmetic step in the claims under
study is exact in both ℚ and binary floating point, see the comments at the
relevant definitions), stateful classes become explicit state passing,
`async` control flow becomes explicit outcome parameters, and thrown errors
become `Except`.  Regular-expression tests are abstracted as boolean/numeric
message features (the regex engine is an external collaborator; the claims
quantify over all messages, which the embedding renders as quantification
over all feature valuations).
-/

namespace ModelGate

/-- `ModelTier` from src/types.ts: "fast" | "quality" | "expert". -/
inductive ModelTier where
  | fast
  | quality
  | expert
deriving DecidableEq, Repr

/-- The string form of a tier, as it appears inside template strings. -/
def tierName : ModelTier → String
  | .fast => "fast"
  | .quality => "quality"
  | .expert => "expert"

/-- `ClassificationResult` from src/types.ts.  `score` is a JS number,
embedded as `ℚ`. -/
@[ext]
structure ClassificationResult where
  tier : ModelTier
  modelId : String
  score : ℚ
  reasons : List String
  classifierUsed : Bool
deriving DecidableEq, Repr

/-- `getDefaultModel(tier).id` from src/registry/models.ts, evaluated on the
built-in `MODEL_REGISTRY` (no custom models registered): the provider
preference order is anthropic > openai > google, and each tier has exactly
one built-in anthropic model. -/
def getDefaultModelId : ModelTier → String
  | .fast => "claude-haiku-4-5-20251001"
  | .quality => "claude-sonnet-4-5-20250929"
  | .expert => "claude-opus-4-6"

-- ===========================================================================
-- LRU cache — src/utils/cache.ts
-- ===========================================================================

/-- `LRUCache<K, V>` from src/utils/cache.ts.  The JS `Map` is
insertion-ordered; we embed it as an association list whose head is the
oldest (least recently used) entry and whose last element is the most
recently used one.  Keys in `entries` are pairwise distinct in every state
reachable through the public operations. -/
structure LRUCache (K V : Type) where
  entries : List (K × V)
  maxSize : Nat
deriving DecidableEq, Repr

namespace LRUCache

variable {K V : Type} [DecidableEq K]

/-- The constructor: `new LRUCache(maxSize)` throws when `maxSize < 1`,
embedded as `none`.  `maxSize` is a JS number, embedded as `Int` so that
non-positive capacities are representable. -/
def mk? (K V : Type) (maxSize : Int) : Option (LRUCache K V) :=
  if maxSize < 1 then none else some { entries := [], maxSize := maxSize.toNat }

/-- `this.map.has(key)`. -/
def hasKey (c : LRUCache K V) (k : K) : Bool :=
  c.entries.any (fun e => e.1 = k)

/-- `this.map.get(key)`. -/
def lookup (c : LRUCache K V) (k : K) : Option V :=
  (c.entries.find? (fun e => e.1 = k)).map Prod.snd

/-- `this.map.delete(key)` on an insertion-ordered map. -/
def eraseKey (entries : List (K × V)) (k : K) : List (K × V) :=
  entries.filter (fun e => ¬ e.1 = k)

/-- `get(key)`: on a hit, the entry is deleted and re-inserted at the end
(most recently used) and its value returned; on a miss the cache is
untouched.  Returns the value together with the updated cache state. -/
def get (c : LRUCache K V) (k : K) : Option V × LRUCache K V :=
  match lookup c k with
  | none => (none, c)
  | some v => (some v, { c with entries := eraseKey c.entries k ++ [(k, v)] })

/-- `set(key, value)`: an existing key is deleted first so the re-insert
goes to the end; otherwise, at capacity, the first (oldest) entry is deleted
before inserting.  (`map.keys().next().value` of an empty map is `undefined`
and deleting it is a no-op, which `List.tail` on `[]` matches.) -/
def set (c : LRUCache K V) (k : K) (v : V) : LRUCache K V :=
  if hasKey c k then
    { c with entries := eraseKey c.entries k ++ [(k, v)] }
  else if c.maxSize ≤ c.entries.length then
    { c with entries := c.entries.tail ++ [(k, v)] }
  else
    { c with entries := c.entries ++ [(k, v)] }

/-- `has(key)`: membership only, no promotion and no mutation. -/
def has (c : LRUCache K V) (k : K) : Bool :=
  hasKey c k

/-- `clear()`. -/
def clear (c : LRUCache K V) : LRUCache K V :=
  { c with entries := [] }

/-- `size` getter. -/
def size (c : LRUCache K V) : Nat :=
  c.entries.length

end LRUCache

/-- One public cache operation, used to state invariants over arbitrary
operation sequences. -/
inductive CacheOp (K V : Type) where
  | get (k : K)
  | set (k : K) (v : V)
  | has (k : K)
  | clear
deriving DecidableEq, Repr

/-- The cache state after one public operation (the values returned by
`get`/`has` are discarded; `get` still performs its promotion, `has`
performs no mutation at all, exactly as in the source). -/
def applyCacheOp {K V : Type} [DecidableEq K] (c : LRUCache K V) :
    CacheOp K V → LRUCache K V
  | .get k => (c.get k).2
  | .set k v => c.set k v
  | .has _ => c
  | .clear => c.clear

/-- The cache state after a sequence of public operations. -/
def runCacheOps {K V : Type} [DecidableEq K] (c : LRUCache K V)
    (ops : List (CacheOp K V)) : LRUCache K V :=
  ops.foldl applyCacheOp c

-- ===========================================================================
-- JS number formatting helpers
-- ===========================================================================

/-- Left-pad a decimal rendering of `n` with zeros to `d` digits. -/
def padDigits (d : Nat) (n : Nat) : String :=
  let s := toString n
  String.mk (List.replicate (d - s.length) '0') ++ s

/-- `⌊|q| * 10^d + 1/2⌋`, computed directly on the numerator and
denominator: `(2 * |num| * 10^d + den) / (2 * den)` in `Nat`. -/
def scaledRound (d : Nat) (q : ℚ) : Nat :=
  (q.num.natAbs * 10 ^ d * 2 + q.den) / (2 * q.den)

/-- JS `Number.prototype.toFixed(d)` for the exact decimal fractions
produced by the embedded code (rounding mode is irrelevant there: every
formatted value is an exact multiple of `10^-d` both in ℚ and in binary
floating point at the comparison granularity used). -/
def toFixedQ (d : Nat) (q : ℚ) : String :=
  let sign := if q.num < 0 then "-" else ""
  let n := scaledRound d q
  sign ++ toString (n / 10 ^ d) ++ "." ++ padDigits d (n % 10 ^ d)

/-- Drop trailing '0' characters. -/
def dropTrailingZeros (s : String) : String :=
  String.mk ((s.data.reverse.dropWhile (fun ch => ch = '0')).reverse)

/-- JS default number-to-string conversion (template-literal interpolation)
for the decimal fractions appearing in the embedded code: an integer prints
without a decimal point, otherwise the shortest decimal expansion is
printed.  All interpolated values in the code under study have at most four
decimal places. -/
def jsShow (q : ℚ) : String :=
  let sign := if q.num < 0 then "-" else ""
  let n := scaledRound 4 q
  let whole := n / 10 ^ 4
  let frac := n % 10 ^ 4
  if frac = 0 then sign ++ toString whole
  else sign ++ toString whole ++ "." ++ dropTrailingZeros (padDigits 4 frac)

-- ===========================================================================
-- Heuristic scorer — src/classifiers/heuristic.ts
-- ===========================================================================

/-- The observable regex/lexical features of one input message, relative to
the full (default ++ caller-supplied) pattern lists of a `HeuristicConfig`.
Each field records exactly what `classifyHeuristic` observes about the
message through the JS regex engine:

* `isGreeting`: some `GREETING_PATTERNS` entry `.test`s true on
  `message.trim()`;
* `wordCount`: `message.split(/\s+/).filter(Boolean).length`;
* `matchesSimple`: some simple pattern (defaults merged with
  `config.simplePatterns`) `.test`s true on the message;
* `complexMatches`: for each complex pattern (defaults merged with
  `config.complexPatterns`) that `.test`s true, in pattern order, the string
  `message.match(pattern)?.[0] ?? "pattern"`;
* `questionMarks`: the number of `?` characters;
* `numberedItems`: the number of `/^\s*\d+[.)]\s/gm` matches;
* `hasBackReference`: some `BACK_REFERENCE_PATTERNS` entry `.test`s true.

The claims under study quantify over all messages and configurations, which
the embedding renders as quantification over all feature valuations. -/
structure MsgFeatures where
  isGreeting : Bool
  wordCount : Nat
  matchesSimple : Bool
  complexMatches : List String
  questionMarks : Nat
  numberedItems : Nat
  hasBackReference : Bool
deriving DecidableEq, Repr

/-- The complex-pattern loop: for each matched pattern, push the matched
text and add 0.2 to the bonus, breaking as soon as the bonus reaches 0.4
(`0.2 + 0.2 ≥ 0.4` holds exactly in both ℚ and binary floating point). -/
def complexScan : List String → ℚ → List String → ℚ × List String
  | [], bonus, names => (bonus, names)
  | m :: rest, bonus, names =>
    let bonus' := bonus + 1/5
    let names' := names ++ [m]
    if (2 : ℚ)/5 ≤ bonus' then (bonus', names') else complexScan rest bonus' names'

/-- `score = Math.max(0, Math.min(1, score))`. -/
def clamp01 (q : ℚ) : ℚ :=
  max 0 (min 1 q)

/-- The tier branch at the end of `classifyHeuristic`:
`score < threshold → fast`, else `score ≥ 0.75 → expert`, else `quality`. -/
def tierOf (score threshold : ℚ) : ModelTier :=
  if score < threshold then .fast
  else if (3 : ℚ)/4 ≤ score then .expert
  else .quality

/-- The final reason string `Final score: ${score.toFixed(2)} → tier: ${tier}`. -/
def finalReason (score : ℚ) (tier : ModelTier) : String :=
  "Final score: " ++ toFixedQ 2 score ++ " → tier: " ++ tierName tier

/-- The scoring body of `classifyHeuristic` after the greeting fast-path:
the (unclamped) score together with the reasons accumulated so far, built in
source order (word count, simple patterns, complex patterns, question count,
numbered lists, back-references). -/
def heuristicBody (f : MsgFeatures) : ℚ × List String :=
  let s0 : ℚ := 1/2
  let (s1, r1) :=
    if f.wordCount ≤ 8 then
      (s0 - 1/5, [("Short message (" ++ toString f.wordCount ++ " words): -0.2")])
    else if 50 ≤ f.wordCount then
      (s0 + 3/20, [("Long message (" ++ toString f.wordCount ++ " words): +0.15")])
    else (s0, [])
  let (s2, r2) :=
    if f.matchesSimple then
      (s1 - 1/5, r1 ++ [("Matches simple query pattern: -0.2")])
    else (s1, r1)
  let (bonus, names) := complexScan f.complexMatches 0 []
  let (s3, r3) :=
    if 0 < bonus then
      (s2 + bonus,
       r2 ++ [("Complex patterns matched [" ++ String.intercalate ", " names ++
               "]: +" ++ toFixedQ 1 bonus)])
    else (s2, r2)
  let (s4, r4) :=
    if 2 ≤ f.questionMarks then
      (s3 + 1/10, r3 ++ [("Multiple questions (" ++ toString f.questionMarks ++ "): +0.1")])
    else (s3, r3)
  let (s5, r5) :=
    if 2 ≤ f.numberedItems then
      (s4 + 3/20,
       r4 ++ [("Structured content (" ++ toString f.numberedItems ++ " numbered items): +0.15")])
    else (s4, r4)
  let (s6, r6) :=
    if f.hasBackReference then
      (s5 + 1/10, r5 ++ [("Contains back-reference to conversation: +0.1")])
    else (s5, r5)
  (s6, r6)

/-- `classifyHeuristic(input, config)` from src/classifiers/heuristic.ts.
`threshold` is `config?.threshold ?? 0.4` (the caller passes the default
when the config carries none); the pattern lists are absorbed into the
feature valuation `f`. -/
def classifyHeuristic (threshold : ℚ) (f : MsgFeatures) : ClassificationResult :=
  if f.isGreeting then
    { tier := .fast
      modelId := getDefaultModelId .fast
      score := 0
      reasons := [("Message is a greeting or acknowledgment")]
      classifierUsed := false }
  else
    let (raw, preReasons) := heuristicBody f
    let score := clamp01 raw
    let tier := tierOf score threshold
    { tier := tier
      modelId := getDefaultModelId tier
      score := score
      reasons := preReasons ++ [finalReason score tier]
      classifierUsed := false }

-- ===========================================================================
-- Task classifier — src/classifiers/task.ts and src/registry/defaults.ts
-- ===========================================================================

/-- `DEFAULT_TASK_TIERS` from src/types.ts. -/
def DEFAULT_TASK_TIERS : List (String × ModelTier) :=
  [("classification", .fast), ("extraction", .fast), ("sentiment_analysis", .fast),
   ("entity_extraction", .fast), ("summarization", .fast), ("translation", .fast),
   ("formatting", .fast), ("tagging", .fast),
   ("content_generation", .quality), ("chat", .quality), ("code_generation", .quality),
   ("explanation", .quality), ("comparison", .quality), ("planning", .quality),
   ("editing", .quality), ("research", .quality),
   ("financial_analysis", .expert), ("legal_analysis", .expert), ("strategy", .expert),
   ("architecture", .expert), ("audit", .expert), ("complex_reasoning", .expert)]

/-- Lookup in a JS string-keyed record embedded as an association list. -/
def recordLookup (table : List (String × ModelTier)) (key : String) : Option ModelTier :=
  (table.find? (fun e => e.1 = key)).map Prod.snd

/-- `getTaskTier(taskType, overrides)` from src/registry/defaults.ts:
overrides take precedence, then `DEFAULT_TASK_TIERS`, then `"quality"`.
(`overrides?.[taskType]` is truthiness on a tier string, which is always
truthy, hence plain presence.) -/
def getTaskTier (taskType : String) (overrides : List (String × ModelTier)) : ModelTier :=
  match recordLookup overrides taskType with
  | some t => t
  | none => (recordLookup DEFAULT_TASK_TIERS taskType).getD .quality

/-- The score assigned by `classifyTask`:
`tier === "fast" ? 0.1 : tier === "quality" ? 0.5 : 0.9`. -/
def taskScore : ModelTier → ℚ
  | .fast => 1/10
  | .quality => 1/2
  | .expert => 9/10

/-- `classifyTask(taskType, overrides)` from src/classifiers/task.ts. -/
def classifyTask (taskType : String) (overrides : List (String × ModelTier)) :
    ClassificationResult :=
  let tier := getTaskTier taskType overrides
  let reasons :=
    if (recordLookup overrides taskType).isSome then
      [("Task \"" ++ taskType ++ "\" overridden to tier \"" ++ tierName tier ++ "\"")]
    else
      [("Task \"" ++ taskType ++ "\" mapped to default tier \"" ++ tierName tier ++ "\"")]
  { tier := tier
    modelId := getDefaultModelId tier
    score := taskScore tier
    reasons := reasons
    classifierUsed := false }

-- ===========================================================================
-- ModelGate entry points — src/gate.ts
-- ===========================================================================

/-- The fields of the merged `ModelGateConfig` that `classify` and
`classifyTask` read (env overrides already merged; pattern lists are
absorbed into the message features). -/
structure GateConfig where
  forceModel : Option ModelTier
  intelligent : Bool
  apiKey : Option String
  ambiguityBand : Option (ℚ × ℚ)
  threshold : Option ℚ
  taskOverrides : List (String × ModelTier)
deriving DecidableEq, Repr

/-- The score of the force-override branch:
`tier === "fast" ? 0.0 : tier === "quality" ? 0.5 : 1.0`. -/
def forceScore : ModelTier → ℚ
  | .fast => 0
  | .quality => 1/2
  | .expert => 1

/-- The result of the force-override branch, shared by `classify` and
`classifyTask`. -/
def forceResult (tier : ModelTier) : ClassificationResult :=
  { tier := tier
    modelId := getDefaultModelId tier
    score := forceScore tier
    reasons := [("Forced to tier \"" ++ tierName tier ++ "\" via config/env override")]
    classifierUsed := false }

/-- The annotation pushed when intelligent mode is on and the heuristic
score falls inside the ambiguity band: `Score ${score.toFixed(2)} is in
ambiguity band [${band[0]}, ${band[1]}] — LLM classifier not yet available,
using heuristic result`. -/
def ambiguityNote (score lo hi : ℚ) : String :=
  "Score " ++ toFixedQ 2 score ++ " is in ambiguity band [" ++ jsShow lo ++
    ", " ++ jsShow hi ++ "] — LLM classifier not yet available, using heuristic result"

/-- `ModelGate.classify` from src/gate.ts on the features of the input
message: force override first; otherwise the heuristic result, with the
ambiguity-band annotation appended when `intelligent` is set together with
an `apiKey` and the score lies inside the band (default [0.3, 0.7]).  No
other code runs in this method: in particular the `LLMClassifier` is never
invoked and the heuristic tier/score/reasons are returned unchanged apart
from the appended note. -/
def gateClassify (cfg : GateConfig) (f : MsgFeatures) : ClassificationResult :=
  match cfg.forceModel with
  | some tier => forceResult tier
  | none =>
    let heuristicResult := classifyHeuristic (cfg.threshold.getD (2/5)) f
    if cfg.intelligent ∧ cfg.apiKey.isSome then
      let band := cfg.ambiguityBand.getD (3/10, 7/10)
      if band.1 ≤ heuristicResult.score ∧ heuristicResult.score ≤ band.2 then
        { heuristicResult with
            reasons := heuristicResult.reasons ++
              [ambiguityNote heuristicResult.score band.1 band.2] }
      else heuristicResult
    else heuristicResult

/-- `ModelGate.classifyTask` from src/gate.ts: force override first,
otherwise `classifyTask(taskType, this.config.taskOverrides)`. -/
def gateClassifyTask (cfg : GateConfig) (taskType : String) : ClassificationResult :=
  match cfg.forceModel with
  | some tier => forceResult tier
  | none => classifyTask taskType cfg.taskOverrides

-- ===========================================================================
-- LLM classifier — src/classifiers/llm.ts
-- ===========================================================================

/-- FNV-1a 32-bit hash from src/classifiers/llm.ts over the UTF-16 code
units of the message (`charCodeAt`); `Math.imul` is multiplication mod
2^32, the xor stays below 2^32. -/
def fnv1aHash (codeUnits : List Nat) : Nat :=
  codeUnits.foldl (fun h c => (Nat.xor h c * 16777619) % 2 ^ 32) 0x811c9dc5

/-- `(hash >>> 0).toString(16)`: lower-case hexadecimal rendering. -/
def toHex (n : Nat) : String :=
  String.mk (Nat.toDigits 16 n)

/-- `buildFallbackResult(reason)` from src/classifiers/llm.ts. -/
def buildFallbackResult (reason : String) : ClassificationResult :=
  { tier := .quality
    modelId := getDefaultModelId .quality
    score := 1/2
    reasons := [reason]
    classifierUsed := true }

/-- The argument `obj` of `parseClassifierResponse` after `JSON.parse`:
`none` models a parse failure (`JSON.parse` threw); otherwise `tier` is the
string value of `obj.tier` when it is a string (anything non-string fails
the three-way comparison just like a wrong string does, so only string
values need distinguishing), and `confidence` is `Number(obj.confidence)`
with `none` for NaN. -/
structure ClassifierReplyJSON where
  tier : Option String
  confidence : Option ℚ
deriving DecidableEq, Repr

/-- `parseClassifierResponse(text)` from src/classifiers/llm.ts, applied to
the parsed JSON value: rejects bad JSON, a tier outside
{fast, quality, expert}, and a NaN or out-of-range confidence. -/
def parseClassifierResponse (text : String) (json : Option ClassifierReplyJSON) :
    Except String (ModelTier × ℚ) :=
  match json with
  | none => .error ("Failed to parse classifier JSON: " ++ text)
  | some obj =>
    let tier? : Option ModelTier :=
      match obj.tier with
      | some t =>
        if t = "fast" then some .fast
        else if t = "quality" then some .quality
        else if t = "expert" then some .expert
        else none
      | none => none
    match tier? with
    | none =>
      .error ("Invalid tier in classifier response: " ++
        (match obj.tier with | some t => t | none => "undefined"))
    | some tier =>
      match obj.confidence with
      | none => .error ("Invalid confidence in classifier response: undefined")
      | some c =>
        if c < 0 ∨ 1 < c then
          .error ("Invalid confidence in classifier response: " ++ jsShow c)
        else .ok (tier, c)

/-- One `LLMClassifier.classify(message)` call, from src/classifiers/llm.ts.
The awaited `callClassifier` is the only suspension; its outcome (a result,
or any thrown error: non-2xx response, empty body, bad JSON, invalid tier,
out-of-range confidence, abort on timeout) is the explicit parameter
`call`.  Returns the classification together with the cache state after the
call: a cache hit returns the stored result (promoted); on a miss a
successful call is cached and returned, and an error is converted into the
fallback result without touching the cache. -/
def llmClassify (cache : LRUCache String ClassificationResult)
    (messageCodeUnits : List Nat)
    (call : Except String ClassificationResult) :
    ClassificationResult × LRUCache String ClassificationResult :=
  let cacheKey := toHex (fnv1aHash messageCodeUnits)
  match cache.get cacheKey with
  | (some cached, cache') => (cached, cache')
  | (none, cache') =>
    match call with
    | .ok result => (result, cache'.set cacheKey result)
    | .error e => (buildFallbackResult ("llm-classifier-error: " ++ e), cache')

-- ===========================================================================
-- Middleware pipeline — src/middleware/pipeline.ts
-- ===========================================================================

/-- The observable effect of one pipeline run: the ordered list of marks
middlewares and the final handler push. -/
abbrev Trace := List Nat

/-- The single-threaded effect a middleware step performs, embedded as
state passing over the observation trace. -/
abbrev PipeM (R : Type) := Trace → R × Trace

/-- `Middleware` from src/types.ts: `(ctx, next) => ResponseContext`,
with the suspension structure embedded in `PipeM`. -/
abbrev Middleware (C R : Type) := C → (Unit → PipeM R) → PipeM R

/-- `MiddlewarePipeline.execute(ctx, finalHandler)` from
src/middleware/pipeline.ts: `dispatch(i)` hands middleware `i` the context
and a `next` that recurses to `dispatch(i + 1)`, and past the end of the
list calls `finalHandler(ctx)`.  The index recursion over
`this.middlewares` is embedded as structural recursion over the list. -/
def execute {C R : Type} (middlewares : List (Middleware C R)) (ctx : C)
    (finalHandler : C → PipeM R) : PipeM R :=
  match middlewares with
  | [] => finalHandler ctx
  | m :: rest => m ctx (fun _ => execute rest ctx finalHandler)

/-- `use(middleware)`: appends to the ordered middleware list. -/
def use {C R : Type} (middlewares : List (Middleware C R)) (m : Middleware C R) :
    List (Middleware C R) :=
  middlewares ++ [m]

/-- The instrumented middleware of the onion-ordering property: pushes
`pre` before calling `next()` and `post` after it returns. -/
def pushMw {C : Type} (pre post : Nat) : Middleware C Unit :=
  fun _ next tr =>
    let step := next () (tr ++ [pre])
    (step.1, step.2 ++ [post])

/-- The instrumented final handler: pushes `0`. -/
def handler0 {C : Type} : C → PipeM Unit :=
  fun _ tr => ((), tr ++ [0])

/-- A middleware that never calls `next()`: it pushes its mark and returns
its own response (short-circuit). -/
def skipMw {C : Type} (mark : Nat) : Middleware C Unit :=
  fun _ _ tr => ((), tr ++ [mark])

-- ===========================================================================
-- Retry middleware — src/ab/experiment.ts (built-in middleware section)
-- ===========================================================================

/-- One event observed while `retryMiddleware` runs: `next()` being entered
for attempt `k`, or the backoff sleep after attempt `k` being entered with
its computed delay. -/
inductive RetryEvent where
  | attempt (k : Nat)
  | wait (k : Nat) (ms : Nat)
deriving DecidableEq, Repr

/-- The cooperative cancellation token.  The single-threaded model: the
signal can flip to aborted only while the code is suspended.  Suspensions
are numbered globally — suspension `2k` is attempt `k`'s `await next()`,
suspension `2k + 1` is the backoff sleep after attempt `k` — and
`abortState = some a` means every synchronous abort check performed after
`a` suspensions have completed observes `aborted = true` (so `some 0` is a
signal already aborted on entry, and `none` a signal that never fires). -/
def abortedAt (abortState : Option Nat) (t : Nat) : Bool :=
  match abortState with
  | none => false
  | some a => a ≤ t

/-- The retry loop of `retryMiddleware` from src/ab/experiment.ts, from
attempt `k` on; `fuel` is the number of loop iterations left
(`maxRetries + 1 - k` at every call reached from `retryRun`) and `lastErr`
the error captured by the previous iteration.  Mirrors the source line by
line: loop exhausted → throw `lastError`; abort observed before the attempt
→ throw `Request aborted`; `next()` succeeds → return its result; on error,
abort observed in the catch block → rethrow the error; otherwise, when
retries remain, sleep `backoffMs * 2 ** attempt`, the sleep rejecting with
`Request aborted` when the signal fires during it, else continue.
`outcomes k` is the result of the `k`-th `await next()`. -/
def retryGo (maxRetries backoff : Nat) (outcomes : Nat → Except String Nat)
    (ab : Option Nat) : Nat → Nat → String → Except String Nat × List RetryEvent
  | _, 0, lastErr => (.error lastErr, [])
  | k, fuel + 1, _ =>
    if abortedAt ab (2 * k) then (.error ("Request aborted"), [])
    else
      match outcomes k with
      | .ok r => (.ok r, [.attempt k])
      | .error e =>
        if abortedAt ab (2 * k + 1) then (.error e, [.attempt k])
        else if k < maxRetries then
          if abortedAt ab (2 * k + 2) then
            (.error ("Request aborted"), [.attempt k, .wait k (backoff * 2 ^ k)])
          else
            let rest := retryGo maxRetries backoff outcomes ab (k + 1) fuel e
            (rest.1, .attempt k :: .wait k (backoff * 2 ^ k) :: rest.2)
        else
          let rest := retryGo maxRetries backoff outcomes ab (k + 1) fuel e
          (rest.1, .attempt k :: rest.2)

/-- One full run of the middleware returned by
`retryMiddleware({maxRetries, backoffMs})`: the loop from attempt 0 with
`maxRetries + 1` iterations available.  The initial `lastError` is the
source's pre-loop `undefined`, which is unreachable because the fuel is
positive. -/
def retryRun (maxRetries backoff : Nat) (outcomes : Nat → Except String Nat)
    (ab : Option Nat) : Except String Nat × List RetryEvent :=
  retryGo maxRetries backoff outcomes ab 0 (maxRetries + 1) "undefined"

-- ===========================================================================
-- Experiment validation — src/ab/experiment.ts
-- ===========================================================================

/-- `ExperimentVariant` from src/types.ts; the tier is kept as the raw
string so that the invalid tiers `validate` guards against are
representable, and the weight is a JS number embedded as ℚ (every
comparison `validate` performs is exact at these magnitudes). -/
structure ExperimentVariant where
  name : String
  tier : String
  weight : ℚ
deriving DecidableEq, Repr

/-- `Experiment` from src/types.ts. -/
structure Experiment where
  name : String
  variants : List ExperimentVariant
  active : Bool
deriving DecidableEq, Repr

/-- `VALID_TIERS` from src/ab/experiment.ts. -/
def VALID_TIERS : List String :=
  ["fast", "quality", "expert"]

/-- The error string pushed for a non-positive weight. -/
def weightErrMsg (v : ExperimentVariant) : String :=
  "Variant \"" ++ v.name ++ "\" has weight " ++ jsShow v.weight ++ " — must be > 0"

/-- The error string pushed for a weight sum outside the tolerance. -/
def sumErrMsg (weightSum : ℚ) : String :=
  "Variant weights sum to " ++ toFixedQ 4 weightSum ++ " — must be within 0.01 of 1.0"

/-- The error string pushed for a repeated variant name. -/
def dupErrMsg (name : String) : String :=
  "Duplicate variant name: \"" ++ name ++ "\""

/-- The error string pushed for an invalid tier. -/
def tierErrMsg (v : ExperimentVariant) : String :=
  "Variant \"" ++ v.name ++ "\" has invalid tier \"" ++ v.tier ++
    "\" — must be one of: " ++ String.intercalate ", " VALID_TIERS

/-- The duplicate-name pass of `validate`: walks the variants carrying the
set of names seen so far, pushing one error per repeated occurrence. -/
def dupScan : List ExperimentVariant → List String → List String
  | [], _ => []
  | v :: rest, seen =>
    (if seen.contains v.name then [dupErrMsg v.name] else []) ++
      dupScan rest (v.name :: seen)

/-- `ExperimentManager.validate(experiment)` from src/ab/experiment.ts,
returning `(valid, errors)`.  An empty variant list returns early; otherwise
the four checks push their errors into one list in source order
(non-positive weights, weight sum, duplicate names, invalid tiers) and
`valid` is `errors.length === 0`. -/
def validate (e : Experiment) : Bool × List String :=
  if e.variants = [] then
    (false, [("Experiment must have at least 1 variant")])
  else
    let weightErrors := e.variants.filterMap fun v =>
      if v.weight ≤ 0 then some (weightErrMsg v) else none
    let weightSum := e.variants.foldl (fun s v => s + v.weight) 0
    let sumErrors := if (1 : ℚ)/100 < |weightSum - 1| then [sumErrMsg weightSum] else []
    let dupErrors := dupScan e.variants []
    let tierErrors := e.variants.filterMap fun v =>
      if VALID_TIERS.contains v.tier then none else some (tierErrMsg v)
    let errors := weightErrors ++ sumErrors ++ dupErrors ++ tierErrors
    (errors.isEmpty, errors)

/-- The distance of a tier from `fast` (fast < quality < expert), the order
in which tiers are compared by the threshold-monotonicity property. -/
def tierRank : ModelTier → Nat
  | .fast => 0
  | .quality => 1
  | .expert => 2

-- ===========================================================================
-- Theorems
-- ===========================================================================

theorem lru_eraseKey_length_le {K V : Type} [DecidableEq K] (l : List (K × V)) (k : K) :
    (LRUCache.eraseKey l k).length ≤ l.length :=
  List.length_filter_le _ l

theorem lru_eraseKey_length_lt {K V : Type} [DecidableEq K] (l : List (K × V)) (k : K)
    (h : l.any (fun e => e.1 = k) = true) :
    (LRUCache.eraseKey l k).length < l.length := by
  induction l with
  | nil => simp at h
  | cons x xs ih =>
    by_cases hx : x.1 = k
    · have : (LRUCache.eraseKey (x :: xs) k) = LRUCache.eraseKey xs k := by
        simp [LRUCache.eraseKey, List.filter, hx]
      rw [this]
      exact Nat.lt_succ_of_le (lru_eraseKey_length_le xs k)
    · have hh : xs.any (fun e => e.1 = k) = true := by
        simp [List.any_cons, hx] at h
        simpa using h
      have : (LRUCache.eraseKey (x :: xs) k) = x :: LRUCache.eraseKey xs k := by
        simp [LRUCache.eraseKey, List.filter, hx]
      rw [this]
      simpa using Nat.succ_lt_succ (ih hh)

theorem lru_applyCacheOp_maxSize {K V : Type} [DecidableEq K]
    (c : LRUCache K V) (op : CacheOp K V) :
    (applyCacheOp c op).maxSize = c.maxSize := by
  cases op with
  | get k =>
    simp only [applyCacheOp, LRUCache.get]
    cases LRUCache.lookup c k <;> rfl
  | set k v =>
    simp only [applyCacheOp, LRUCache.set]
    by_cases h1 : LRUCache.hasKey c k <;> by_cases h2 : c.maxSize ≤ c.entries.length <;>
      simp [h1, h2]
  | has k => rfl
  | clear => rfl

theorem lru_applyCacheOp_size_le {K V : Type} [DecidableEq K]
    (c : LRUCache K V) (op : CacheOp K V)
    (hcap : 1 ≤ c.maxSize) (hs : c.size ≤ c.maxSize) :
    (applyCacheOp c op).size ≤ c.maxSize := by
  cases op with
  | get k =>
    simp only [applyCacheOp, LRUCache.get]
    cases hl : LRUCache.lookup c k with
    | none => exact hs
    | some v =>
      have hk : c.entries.any (fun e => e.1 = k) = true := by
        simp only [LRUCache.lookup] at hl
        rcases Option.map_eq_some'.mp hl with ⟨e, he, _⟩
        have := List.find?_some he
        have hmem := List.mem_of_find?_eq_some he
        simp only [List.any_eq_true]
        exact ⟨e, hmem, this⟩
      have := lru_eraseKey_length_lt c.entries k hk
      simp only [LRUCache.size, List.length_append, List.length_cons,
        List.length_nil] at *
      omega
  | set k v =>
    simp only [applyCacheOp]
    unfold LRUCache.set
    by_cases h1 : LRUCache.hasKey c k = true
    · rw [if_pos h1]
      have hlt := lru_eraseKey_length_lt c.entries k h1
      simp only [LRUCache.size, List.length_append, List.length_cons,
        List.length_nil] at *
      omega
    · rw [if_neg h1]
      by_cases h2 : c.maxSize ≤ c.entries.length
      · rw [if_pos h2]
        have htail : c.entries.tail.length = c.entries.length - 1 := by
          cases c.entries <;> simp
        simp only [LRUCache.size, List.length_append, List.length_cons,
          List.length_nil] at *
        omega
      · rw [if_neg h2]
        simp only [LRUCache.size, List.length_append, List.length_cons,
          List.length_nil] at *
        omega
  | has k => exact hs
  | clear => simp [applyCacheOp, LRUCache.clear, LRUCache.size]

theorem lru_runCacheOps_size_le {K V : Type} [DecidableEq K]
    (ops : List (CacheOp K V)) (c : LRUCache K V)
    (hcap : 1 ≤ c.maxSize) (hs : c.size ≤ c.maxSize) :
    (runCacheOps c ops).size ≤ c.maxSize := by
  induction ops generalizing c with
  | nil => exact hs
  | cons op ops ih =>
    have hmax := lru_applyCacheOp_maxSize c op
    have hstep := lru_applyCacheOp_size_le c op hcap hs
    have := ih (applyCacheOp c op) (by omega) (by omega)
    simpa [runCacheOps, hmax] using this

/-- Claim C4: the `LRUCache` follows the textbook LRU discipline.  With
capacity 3, inserting a, b, c, d in order evicts exactly a while b, c, d
remain and the size stays 3; a `get` before the next insert promotes the
entry and prevents its eviction; `has` never changes the cache state, so a
checked key is still evicted next; `set` of an existing key updates the value
and promotes it without evicting anything; the size never exceeds the
construction capacity over any operation sequence; and construction with
capacity < 1 fails. -/
theorem C4_lru_cache_discipline :
    (∀ n : Nat, LRUCache.mk? String String (-(n : Int)) = none)
    ∧ LRUCache.mk? String String 3 =
        some { entries := [], maxSize := 3 }
    ∧ (let c := ((((⟨[], 3⟩ : LRUCache String String).set "a" "1").set "b" "2").set
          "c" "3").set "d" "4"
       c.has "a" = false ∧ c.has "b" = true ∧ c.has "c" = true ∧ c.has "d" = true
         ∧ c.size = 3)
    ∧ (let p := (((⟨[], 3⟩ : LRUCache String String).set "a" "1").set "b" "2").set "c" "3"
       let q := ((p.get "a").2).set "d" "4"
       q.has "a" = true ∧ q.has "b" = false ∧ q.has "c" = true ∧ q.has "d" = true
         ∧ q.size = 3)
    ∧ (runCacheOps (⟨[], 3⟩ : LRUCache String String)
          [.set "a" "1", .set "b" "2", .set "c" "3", .has "a", .set "d" "4"]).has "a"
        = false
    ∧ (∀ (c : LRUCache String String) (k : String), applyCacheOp c (.has k) = c)
    ∧ (let p := (((⟨[], 3⟩ : LRUCache String String).set "a" "1").set "b" "2").set "c" "3"
       let u := p.set "b" "9"
       u.size = 3 ∧ u.lookup "b" = some "9" ∧ u.has "a" = true ∧ u.has "c" = true
         ∧ (u.set "d" "4").has "b" = true ∧ (u.set "d" "4").has "a" = false)
    ∧ (∀ (cap : Nat) (ops : List (CacheOp String String)),
        (runCacheOps (⟨[], cap + 1⟩ : LRUCache String String) ops).size ≤ cap + 1) := by
  refine ⟨?_, by decide, by decide, by decide, by decide, ?_, by decide, ?_⟩
  · intro n
    have h : -(n : Int) < 1 := by omega
    simp [LRUCache.mk?, h]
  · intro c k
    rfl
  · intro cap ops
    exact lru_runCacheOps_size_le ops ⟨[], cap + 1⟩ (Nat.succ_le_succ (Nat.zero_le cap))
      (Nat.zero_le _)

/-- Claim C6: a message whose trimmed text matches a greeting or
acknowledgment pattern is classified fast with score exactly 0.0
immediately, with the single greeting reason and none of the later scoring
steps performed: the result is a fixed constant, independent of the word
count, the simple/complex pattern matches, the question marks, the numbered
items and the back-references, for every threshold. -/
theorem C6_greeting_fast_path (threshold : ℚ) (f : MsgFeatures)
    (h : f.isGreeting = true) :
    classifyHeuristic threshold f =
      { tier := .fast
        modelId := getDefaultModelId .fast
        score := 0
        reasons := [("Message is a greeting or acknowledgment")]
        classifierUsed := false } := by
  unfold classifyHeuristic
  rw [if_pos h]

theorem C6_greeting_fast_path_witness :
    classifyHeuristic (2/5) ⟨true, 40, true, ["analyze"], 3, 2, true⟩ =
      { tier := .fast
        modelId := getDefaultModelId .fast
        score := 0
        reasons := [("Message is a greeting or acknowledgment")]
        classifierUsed := false } :=
  C6_greeting_fast_path (2/5) ⟨true, 40, true, ["analyze"], 3, 2, true⟩ rfl

/-- Claim C5, counterexample: the claim as stated fails on greeting
messages.  On the features of the message `"hi"` (the greeting fast-path)
the single reason is `"Message is a greeting or acknowledgment"`, which is
not the `Final score: … → tier: …` reason stating the numeric score and
resulting tier. -/
theorem C5_counterexample :
    ¬ ((classifyHeuristic (2/5) ⟨true, 1, false, [], 0, 0, false⟩).reasons.getLast? =
        some (finalReason
          (classifyHeuristic (2/5) ⟨true, 1, false, [], 0, 0, false⟩).score
          (classifyHeuristic (2/5) ⟨true, 1, false, [], 0, 0, false⟩).tier)) := by
  decide

/-- Claim C5, amended: for every input message and configuration,
`classifyHeuristic` returns a score in [0, 1] and a non-empty reasons list;
on every message that does not hit the greeting fast-path, the final reason
states the numeric score and the resulting tier (on the greeting fast-path
the single reason is the fixed greeting explanation instead). -/
theorem C5_score_bounds_and_reasons (threshold : ℚ) (f : MsgFeatures) :
    0 ≤ (classifyHeuristic threshold f).score
    ∧ (classifyHeuristic threshold f).score ≤ 1
    ∧ (classifyHeuristic threshold f).reasons ≠ []
    ∧ (f.isGreeting = false →
        (classifyHeuristic threshold f).reasons.getLast? =
          some (finalReason (classifyHeuristic threshold f).score
            (classifyHeuristic threshold f).tier)) := by
  unfold classifyHeuristic
  cases hg : f.isGreeting with
  | true => simp [hg]
  | false =>
    rw [if_neg (by simp [hg])]
    obtain ⟨raw, pre⟩ := heuristicBody f
    refine ⟨?_, ?_, ?_, ?_⟩
    · exact le_max_left 0 _
    · exact max_le (by norm_num) (min_le_left 1 raw)
    · simp
    · intro _
      simp

theorem C5_score_bounds_and_reasons_witness :
    (classifyHeuristic (2/5) ⟨false, 10, false, [], 0, 0, false⟩).reasons.getLast? =
      some (finalReason
        (classifyHeuristic (2/5) ⟨false, 10, false, [], 0, 0, false⟩).score
        (classifyHeuristic (2/5) ⟨false, 10, false, [], 0, 0, false⟩).tier) :=
  (C5_score_bounds_and_reasons (2/5) ⟨false, 10, false, [], 0, 0, false⟩).2.2.2 rfl

theorem tierOf_threshold_monotone (s t1 t2 : ℚ) (h : t1 ≤ t2) :
    tierRank (tierOf s t2) ≤ tierRank (tierOf s t1) := by
  unfold tierOf
  split_ifs <;> simp [tierRank] <;> linarith

/-- Claim C9: tier assignment is monotone in the threshold.  For a fixed
feature valuation (hence a fixed heuristic score), raising the threshold
can only move the resulting tier toward `fast` in the
fast < quality < expert order, never away from it. -/
theorem C9_threshold_monotone (f : MsgFeatures) (t1 t2 : ℚ) (h : t1 ≤ t2) :
    tierRank (classifyHeuristic t2 f).tier ≤ tierRank (classifyHeuristic t1 f).tier := by
  unfold classifyHeuristic
  cases hg : f.isGreeting with
  | true => simp
  | false =>
    rw [if_neg (by simp [hg]), if_neg (by simp [hg])]
    obtain ⟨raw, pre⟩ := heuristicBody f
    exact tierOf_threshold_monotone (clamp01 raw) t1 t2 h

theorem C9_threshold_monotone_witness :
    tierRank (classifyHeuristic (3/5) ⟨false, 10, false, [], 0, 0, false⟩).tier ≤
      tierRank (classifyHeuristic (1/4) ⟨false, 10, false, [], 0, 0, false⟩).tier :=
  C9_threshold_monotone ⟨false, 10, false, [], 0, 0, false⟩ (1/4) (3/5) (by norm_num)

theorem execute_pushMw_trace (ps : List (Nat × Nat)) (tr : Trace) :
    execute (ps.map fun p => pushMw p.1 p.2) () handler0 tr =
      ((), tr ++ ps.map Prod.fst ++ [0] ++ (ps.map Prod.snd).reverse) := by
  induction ps generalizing tr with
  | nil => simp [execute, handler0]
  | cons p ps ih =>
    simp only [List.map_cons, execute, pushMw, ih, List.reverse_cons]
    simp [List.append_assoc]

theorem execute_skipMw_trace (ps : List (Nat × Nat)) (mark : Nat)
    (rest : List (Middleware Unit Unit)) (tr : Trace) :
    execute ((ps.map fun p => pushMw p.1 p.2) ++ skipMw mark :: rest) () handler0 tr =
      ((), tr ++ ps.map Prod.fst ++ [mark] ++ (ps.map Prod.snd).reverse) := by
  induction ps generalizing tr with
  | nil => simp [execute, skipMw]
  | cons p ps ih =>
    simp only [List.map_cons, List.cons_append, execute, pushMw, List.reverse_cons]
    simp [ih, List.append_assoc]

/-- Claim C3: `MiddlewarePipeline.execute` implements the onion model.  For
every list of instrumented middlewares (each pushing `pre` before `next()`
and `post` after), the pre-`next()` marks appear in registration order, then
the final handler's mark, then the post-`next()` marks in reverse
registration order; the repository's three-middleware instance observes
`[1, 2, 3, 0, 4, 5, 6]`; and a middleware that never calls `next()`
short-circuits: no deeper middleware and not the final handler contributes
to the trace, whatever follows it in the pipeline. -/
theorem C3_onion_ordering :
    (∀ (ps : List (Nat × Nat)) (tr : Trace),
      execute (ps.map fun p => pushMw p.1 p.2) () handler0 tr =
        ((), tr ++ ps.map Prod.fst ++ [0] ++ (ps.map Prod.snd).reverse))
    ∧ execute [pushMw 1 6, pushMw 2 5, pushMw 3 4] () handler0 [] =
        ((), [1, 2, 3, 0, 4, 5, 6])
    ∧ (∀ (ps : List (Nat × Nat)) (mark : Nat) (rest : List (Middleware Unit Unit))
        (tr : Trace),
      execute ((ps.map fun p => pushMw p.1 p.2) ++ skipMw mark :: rest) () handler0 tr =
        ((), tr ++ ps.map Prod.fst ++ [mark] ++ (ps.map Prod.snd).reverse)) :=
  ⟨execute_pushMw_trace, by rfl, execute_skipMw_trace⟩

/-- Claim C10: on the `classifyTask` path without a force override, the
score is assigned by tier as 0.1 / 0.5 / 0.9 for fast / quality / expert —
a different table from the force-override scores 0.0 / 0.5 / 1.0 —
`classifierUsed` is false, and there is exactly one reason, naming the task
type and whether a caller override or the default table decided the tier. -/
theorem C10_task_scores (cfg : GateConfig) (taskType : String)
    (h : cfg.forceModel = none) :
    ((gateClassifyTask cfg taskType).score =
        taskScore (gateClassifyTask cfg taskType).tier)
    ∧ (gateClassifyTask cfg taskType).classifierUsed = false
    ∧ (gateClassifyTask cfg taskType).reasons =
        [if (recordLookup cfg.taskOverrides taskType).isSome then
           ("Task \"" ++ taskType ++ "\" overridden to tier \"" ++
             tierName (gateClassifyTask cfg taskType).tier ++ "\"")
         else
           ("Task \"" ++ taskType ++ "\" mapped to default tier \"" ++
             tierName (gateClassifyTask cfg taskType).tier ++ "\"")]
    ∧ (taskScore .fast = 1/10 ∧ taskScore .quality = 1/2 ∧ taskScore .expert = 9/10)
    ∧ (forceScore .fast = 0 ∧ forceScore .quality = 1/2 ∧ forceScore .expert = 1)
    ∧ (∀ tier : ModelTier, (forceResult tier).score = forceScore tier) := by
  unfold gateClassifyTask
  rw [h]
  refine ⟨rfl, rfl, ?_, ⟨rfl, rfl, rfl⟩, ⟨rfl, rfl, rfl⟩, fun _ => rfl⟩
  by_cases ho : (recordLookup cfg.taskOverrides taskType).isSome = true <;>
    simp [classifyTask, ho]

theorem C10_task_scores_witness :
    (gateClassifyTask ⟨none, false, none, none, none, []⟩ "strategy").score =
      taskScore (gateClassifyTask ⟨none, false, none, none, none, []⟩ "strategy").tier :=
  (C10_task_scores ⟨none, false, none, none, none, []⟩ "strategy" rfl).1

theorem lru_get_miss {K V : Type} [DecidableEq K] (c : LRUCache K V) (k : K)
    (h : c.hasKey k = false) : c.get k = (none, c) := by
  have hf : c.entries.find? (fun e => decide (e.1 = k)) = none := by
    rw [List.find?_eq_none]
    intro x hx
    simp only [LRUCache.hasKey, List.any_eq_true, not_exists, decide_eq_true_eq,
      Bool.not_eq_true] at h ⊢
    have := List.any_eq_false.mp h x hx
    simpa using this
  simp [LRUCache.get, LRUCache.lookup, hf]

/-- Claim C2: `LLMClassifier.classify` never propagates an exception.  Any
error thrown inside the awaited call (non-2xx response, empty body, bad
JSON, invalid tier, out-of-range confidence, cancellation) is converted at
the `classify` boundary into the fallback result — tier quality, score 0.5,
classifierUsed true, exactly one reason `llm-classifier-error: …` — and the
classification cache is left unchanged; a successful call is stored in the
cache, and only successful ones are. -/
theorem C2_llm_classifier_fallback (cache : LRUCache String ClassificationResult)
    (msg : List Nat) (e : String)
    (hmiss : cache.hasKey (toHex (fnv1aHash msg)) = false) :
    llmClassify cache msg (.error e) =
        (buildFallbackResult ("llm-classifier-error: " ++ e), cache)
    ∧ (buildFallbackResult ("llm-classifier-error: " ++ e)).tier = .quality
    ∧ (buildFallbackResult ("llm-classifier-error: " ++ e)).score = 1/2
    ∧ (buildFallbackResult ("llm-classifier-error: " ++ e)).classifierUsed = true
    ∧ (buildFallbackResult ("llm-classifier-error: " ++ e)).reasons =
        [("llm-classifier-error: " ++ e)]
    ∧ (∀ r, llmClassify cache msg (.ok r) =
        (r, cache.set (toHex (fnv1aHash msg)) r))
    ∧ (∀ text, (parseClassifierResponse text none).isOk = false)
    ∧ (∀ (text : String) (conf : Option ℚ) (tval : String),
        ¬(tval = "fast" ∨ tval = "quality" ∨ tval = "expert") →
        (parseClassifierResponse text (some ⟨some tval, conf⟩)).isOk = false)
    ∧ (∀ (text tval : String) (c : ℚ), (c < 0 ∨ 1 < c) →
        (parseClassifierResponse text (some ⟨some tval, some c⟩)).isOk = false) := by
  have hget := lru_get_miss cache (toHex (fnv1aHash msg)) hmiss
  refine ⟨?_, rfl, rfl, rfl, rfl, ?_, ?_, ?_, ?_⟩
  · simp [llmClassify, hget]
  · intro r
    simp [llmClassify, hget]
  · intro text
    rfl
  · intro text conf tval h
    push_neg at h
    obtain ⟨h1, h2, h3⟩ := h
    simp [parseClassifierResponse, h1, h2, h3, Except.isOk, Except.toBool]
  · intro text tval c h
    by_cases h1 : tval = "fast"
    · simp [parseClassifierResponse, h1, h, Except.isOk, Except.toBool]
    · by_cases h2 : tval = "quality"
      · simp [parseClassifierResponse, h2, h, Except.isOk, Except.toBool]
      · by_cases h3 : tval = "expert"
        · simp [parseClassifierResponse, h3, h, Except.isOk, Except.toBool]
        · simp [parseClassifierResponse, h1, h2, h3, Except.isOk, Except.toBool]

theorem C2_llm_classifier_fallback_witness :
    llmClassify (⟨[], 1000⟩ : LRUCache String ClassificationResult) [104, 105]
        (.error ("boom")) =
      (buildFallbackResult ("llm-classifier-error: " ++ "boom"),
        (⟨[], 1000⟩ : LRUCache String ClassificationResult)) :=
  (C2_llm_classifier_fallback ⟨[], 1000⟩ [104, 105] ("boom") rfl).1

/-- Claim C1 (code bug): with intelligent mode configured together with an
API key and the heuristic score inside the default ambiguity band
[0.3, 0.7], `ModelGate.classify` does not consult the LLM Classifier: it
returns the heuristic tier, score and reasons unchanged, with
`classifierUsed = false` (every LLM Classifier result carries
`classifierUsed = true`), merely appending a note that the band was hit and
that the heuristic result is used.  The second conjunct shows the same
configuration outside the band returns the bare heuristic result.  This
contradicts the method's stated contract of delegating ambiguous cases to
the LLM Classifier. -/
theorem C1_ambiguity_band_only_annotates :
    (gateClassify ⟨none, true, some "sk-test", none, none, []⟩
        ⟨false, 10, false, [], 0, 0, false⟩ =
      { tier := .quality
        modelId := getDefaultModelId .quality
        score := 1/2
        reasons := [("Final score: 0.50 → tier: quality"),
          ("Score 0.50 is in ambiguity band [0.3, 0.7] — LLM classifier not yet available, using heuristic result")]
        classifierUsed := false })
    ∧ gateClassify ⟨none, true, some "sk-test", none, none, []⟩
        ⟨false, 3, true, [], 0, 0, false⟩ =
      classifyHeuristic (2/5) ⟨false, 3, true, [], 0, 0, false⟩ := by
  constructor <;> apply ClassificationResult.ext <;> with_unfolding_all decide

theorem dupScan_mem_of_dup (l : List ExperimentVariant) (seen : List String)
    (h : ¬ (l.map fun v => v.name).Nodup ∨ ∃ v ∈ l, v.name ∈ seen) :
    ∃ n, dupErrMsg n ∈ dupScan l seen := by
  induction l generalizing seen with
  | nil => simp at h
  | cons v rest ih =>
    by_cases hs : seen.contains v.name = true
    · refine ⟨v.name, ?_⟩
      have step : dupScan (v :: rest) seen =
          dupErrMsg v.name :: dupScan rest (v.name :: seen) := by
        simp only [dupScan]
        rw [if_pos hs]
        rfl
      rw [step]
      exact List.mem_cons_self _ _
    · have hsn : v.name ∉ seen := fun hmem => hs (List.elem_eq_true_of_mem hmem)
      have step : dupScan (v :: rest) seen = dupScan rest (v.name :: seen) := by
        simp only [dupScan]
        rw [if_neg hs]
        rfl
      rw [step]
      apply ih
      rcases h with hnd | ⟨w, hw, hwseen⟩
      · rw [List.map_cons, List.nodup_cons] at hnd
        by_cases hmem : v.name ∈ rest.map (fun v => v.name)
        · right
          rcases List.mem_map.mp hmem with ⟨w, hw, hns⟩
          exact ⟨w, hw, by simp [hns]⟩
        · left
          intro hnd2
          exact hnd ⟨hmem, hnd2⟩
      · rcases List.mem_cons.mp hw with hv | hr
        · exact absurd (hv ▸ hwseen) hsn
        · exact Or.inr ⟨w, hr, List.mem_cons_of_mem _ hwseen⟩

theorem validate_weight_err_mem (e : Experiment) (v : ExperimentVariant)
    (hv : v ∈ e.variants) (hw : v.weight ≤ 0) :
    weightErrMsg v ∈ (validate e).2 := by
  have hne : ¬ e.variants = [] := by intro hnil; rw [hnil] at hv; simp at hv
  simp only [validate, if_neg hne, List.mem_append]
  refine Or.inl (Or.inl (Or.inl ?_))
  exact List.mem_filterMap.mpr ⟨v, hv, by rw [if_pos hw]⟩

theorem validate_sum_err_mem (e : Experiment)
    (hne : e.variants ≠ [])
    (htol : (1 : ℚ)/100 < |e.variants.foldl (fun s v => s + v.weight) 0 - 1|) :
    sumErrMsg (e.variants.foldl (fun s v => s + v.weight) 0) ∈ (validate e).2 := by
  simp only [validate, if_neg hne, List.mem_append]
  refine Or.inl (Or.inl (Or.inr ?_))
  rw [if_pos htol]
  exact List.mem_singleton_self _

theorem validate_dup_err_mem (e : Experiment)
    (h : ¬ (e.variants.map fun v => v.name).Nodup) :
    ∃ n, dupErrMsg n ∈ (validate e).2 := by
  have hne : ¬ e.variants = [] := by rintro hnil; rw [hnil] at h; simp at h
  obtain ⟨n, hn⟩ := dupScan_mem_of_dup e.variants [] (Or.inl h)
  refine ⟨n, ?_⟩
  simp only [validate, if_neg hne, List.mem_append]
  exact Or.inl (Or.inr hn)

theorem validate_tier_err_mem (e : Experiment) (v : ExperimentVariant)
    (hv : v ∈ e.variants) (ht : VALID_TIERS.contains v.tier = false) :
    tierErrMsg v ∈ (validate e).2 := by
  have hne : ¬ e.variants = [] := by intro hnil; rw [hnil] at hv; simp at hv
  simp only [validate, if_neg hne, List.mem_append]
  refine Or.inr ?_
  exact List.mem_filterMap.mpr ⟨v, hv, by rw [ht]; rfl⟩

theorem validate_valid_iff_no_errors (e : Experiment) :
    (validate e).1 = true ↔ (validate e).2 = [] := by
  unfold validate
  by_cases h : e.variants = []
  · simp [h]
  · simp [h, List.isEmpty_iff]

/-- Claim C8: `ExperimentManager.validate` returns `{valid, errors}` with
weights [0.5, 0.5] valid; weights [0.51, 0.51] invalid (sum outside the
±0.01 tolerance); a zero or a negative weight invalid; duplicate variant
names invalid; a tier outside fast/quality/expert invalid; every
simultaneous violation reported in `errors` (each check contributes its
error independently of the others); and `valid` true exactly when `errors`
is empty. -/
theorem C8_validate_experiment :
    validate ⟨"exp", [⟨"A", "quality", 1/2⟩, ⟨"B", "fast", 1/2⟩], true⟩ = (true, [])
    ∧ ((validate ⟨"exp", [⟨"A", "quality", 51/100⟩, ⟨"B", "fast", 51/100⟩], true⟩).1
          = false
       ∧ sumErrMsg (51/50) ∈
          (validate ⟨"exp", [⟨"A", "quality", 51/100⟩, ⟨"B", "fast", 51/100⟩], true⟩).2)
    ∧ ((validate ⟨"exp", [⟨"A", "fast", 0⟩, ⟨"B", "quality", 1⟩], true⟩).1 = false
       ∧ weightErrMsg ⟨"A", "fast", 0⟩ ∈
          (validate ⟨"exp", [⟨"A", "fast", 0⟩, ⟨"B", "quality", 1⟩], true⟩).2)
    ∧ ((validate ⟨"exp", [⟨"A", "fast", -(1/5)⟩, ⟨"B", "quality", 12/10⟩], true⟩).1
          = false
       ∧ weightErrMsg ⟨"A", "fast", -(1/5)⟩ ∈
          (validate ⟨"exp", [⟨"A", "fast", -(1/5)⟩, ⟨"B", "quality", 12/10⟩], true⟩).2)
    ∧ ((validate ⟨"exp", [⟨"A", "fast", 1/2⟩, ⟨"A", "quality", 1/2⟩], true⟩).1 = false
       ∧ dupErrMsg "A" ∈
          (validate ⟨"exp", [⟨"A", "fast", 1/2⟩, ⟨"A", "quality", 1/2⟩], true⟩).2)
    ∧ ((validate ⟨"exp", [⟨"A", "turbo", 1⟩], true⟩).1 = false
       ∧ tierErrMsg ⟨"A", "turbo", 1⟩ ∈ (validate ⟨"exp", [⟨"A", "turbo", 1⟩], true⟩).2)
    ∧ ((validate ⟨"exp", [⟨"A", "quality", 0⟩, ⟨"A", "turbo", 12/10⟩], true⟩).1 = false
       ∧ weightErrMsg ⟨"A", "quality", 0⟩ ∈
          (validate ⟨"exp", [⟨"A", "quality", 0⟩, ⟨"A", "turbo", 12/10⟩], true⟩).2
       ∧ sumErrMsg (6/5) ∈
          (validate ⟨"exp", [⟨"A", "quality", 0⟩, ⟨"A", "turbo", 12/10⟩], true⟩).2
       ∧ dupErrMsg "A" ∈
          (validate ⟨"exp", [⟨"A", "quality", 0⟩, ⟨"A", "turbo", 12/10⟩], true⟩).2
       ∧ tierErrMsg ⟨"A", "turbo", 12/10⟩ ∈
          (validate ⟨"exp", [⟨"A", "quality", 0⟩, ⟨"A", "turbo", 12/10⟩], true⟩).2)
    ∧ (∀ e : Experiment, (validate e).1 = true ↔ (validate e).2 = [])
    ∧ (∀ (e : Experiment) (v : ExperimentVariant), v ∈ e.variants → v.weight ≤ 0 →
        weightErrMsg v ∈ (validate e).2)
    ∧ (∀ e : Experiment, e.variants ≠ [] →
        (1 : ℚ)/100 < |e.variants.foldl (fun s v => s + v.weight) 0 - 1| →
        sumErrMsg (e.variants.foldl (fun s v => s + v.weight) 0) ∈ (validate e).2)
    ∧ (∀ e : Experiment, ¬ (e.variants.map fun v => v.name).Nodup →
        ∃ n, dupErrMsg n ∈ (validate e).2)
    ∧ (∀ (e : Experiment) (v : ExperimentVariant), v ∈ e.variants →
        VALID_TIERS.contains v.tier = false → tierErrMsg v ∈ (validate e).2) := by
  refine ⟨?_, ⟨?_, ?_⟩, ⟨?_, ?_⟩, ⟨?_, ?_⟩, ⟨?_, ?_⟩, ⟨?_, ?_⟩, ⟨?_, ?_, ?_, ?_, ?_⟩,
    validate_valid_iff_no_errors, validate_weight_err_mem, validate_sum_err_mem,
    validate_dup_err_mem, validate_tier_err_mem⟩ <;> with_unfolding_all decide

theorem C8_validate_experiment_witness :
    weightErrMsg ⟨"A", "quality", 0⟩ ∈
      (validate ⟨"exp", [⟨"A", "quality", 0⟩, ⟨"A", "turbo", 12/10⟩], true⟩).2 :=
  (C8_validate_experiment).2.2.2.2.2.2.2.2.1
    ⟨"exp", [⟨"A", "quality", 0⟩, ⟨"A", "turbo", 12/10⟩], true⟩
    ⟨"A", "quality", 0⟩ (by decide) (by with_unfolding_all decide)

theorem retryGo_wait_spec (mr b : Nat) (oc : Nat → Except String Nat) (ab : Option Nat) :
    ∀ fuel k le k' ms, RetryEvent.wait k' ms ∈ (retryGo mr b oc ab k fuel le).2 →
      ms = b * 2 ^ k' ∧ ∀ a, ab = some a → 2 * k' + 1 < a := by
  intro fuel
  induction fuel with
  | zero =>
    intro k le k' ms hmem
    simp [retryGo] at hmem
  | succ fuel ih =>
    intro k le k' ms hmem
    unfold retryGo at hmem
    split at hmem
    · simp at hmem
    · split at hmem
      · simp at hmem
      · rename_i h0 e hoc
        split at hmem
        · simp at hmem
        · rename_i h1
          split at hmem
          · split at hmem
            · simp at hmem
              obtain ⟨hk, hms⟩ := hmem
              subst hk
              refine ⟨hms, ?_⟩
              intro a hab
              rw [hab] at h1
              simp [abortedAt] at h1
              omega
            · simp at hmem
              rcases hmem with ⟨hk, hms⟩ | hmem
              · subst hk
                refine ⟨hms, ?_⟩
                intro a hab
                rw [hab] at h1
                simp [abortedAt] at h1
                omega
              · exact ih _ _ _ _ hmem
          · simp at hmem
            exact ih _ _ _ _ hmem

theorem retryGo_attempt_spec (mr b : Nat) (oc : Nat → Except String Nat) (ab : Option Nat) :
    ∀ fuel k le k', RetryEvent.attempt k' ∈ (retryGo mr b oc ab k fuel le).2 →
      ∀ a, ab = some a → 2 * k' < a := by
  intro fuel
  induction fuel with
  | zero =>
    intro k le k' hmem
    simp [retryGo] at hmem
  | succ fuel ih =>
    intro k le k' hmem
    unfold retryGo at hmem
    split at hmem
    · simp at hmem
    · rename_i h0
      have hbound : ∀ a, ab = some a → 2 * k < a := by
        intro a hab
        rw [hab] at h0
        simp [abortedAt] at h0
        omega
      split at hmem
      · simp at hmem
        subst hmem
        exact hbound
      · split at hmem
        · simp at hmem
          subst hmem
          exact hbound
        · split at hmem
          · split at hmem
            · simp at hmem
              subst hmem
              exact hbound
            · simp at hmem
              rcases hmem with hk | hmem
              · subst hk
                exact hbound
              · exact ih _ _ _ hmem
          · simp at hmem
            rcases hmem with hk | hmem
            · subst hk
              exact hbound
            · exact ih _ _ _ hmem

theorem retryGo_all_fail (mr b : Nat) (es : Nat → String) :
    ∀ (j k : Nat) (le : String), k + j = mr →
    retryGo mr b (fun n => Except.error (es n)) none k (j + 1) le =
      (Except.error (es mr), (List.range' k (j + 1)).flatMap
        (fun i => RetryEvent.attempt i ::
          if i < mr then [RetryEvent.wait i (b * 2 ^ i)] else [])) := by
  intro j
  induction j with
  | zero =>
    intro k le hk
    have hk' : k = mr := by omega
    subst hk'
    unfold retryGo
    simp [abortedAt, retryGo, List.range']
  | succ j ih =>
    intro k le hk
    have hklt : k < mr := by omega
    unfold retryGo
    simp [abortedAt, hklt, ih (k + 1) (es k) (by omega), List.range'_succ,
      List.flatMap_cons]

theorem retryRun_pre_aborted (mr b : Nat) (oc : Nat → Except String Nat) :
    retryRun mr b oc (some 0) = (Except.error ("Request aborted"), []) := by
  simp [retryRun, retryGo, abortedAt]

/-- Claim C7: the retry middleware attempts `next()` up to `maxRetries + 1`
times — a handler failing twice and succeeding on the third attempt is
called exactly three times and its result returned, with backoff waits of
100 ms and 200 ms between the attempts at the defaults; every backoff wait
before attempt `k + 1` is `backoffMs * 2 ^ k`; the cancellation token is
checked before every attempt and before every wait (an attempt or a wait is
only ever entered while the signal has not yet fired at its checkpoint, and
a signal already aborted on entry yields zero attempts), and when every
attempt fails the loop re-throws the last attempt's error after exactly
`maxRetries + 1` attempts. -/
theorem C7_retry_middleware :
    retryRun 2 100
        (fun k => if k < 2 then .error ("fail" ++ toString k) else .ok 42) none =
      (.ok 42, [.attempt 0, .wait 0 100, .attempt 1, .wait 1 200, .attempt 2])
    ∧ (∀ (mr b : Nat) (oc : Nat → Except String Nat) (ab : Option Nat) (k ms : Nat),
        RetryEvent.wait k ms ∈ (retryRun mr b oc ab).2 →
          ms = b * 2 ^ k ∧ ∀ a, ab = some a → 2 * k + 1 < a)
    ∧ (∀ (mr b : Nat) (oc : Nat → Except String Nat) (ab : Option Nat) (k : Nat),
        RetryEvent.attempt k ∈ (retryRun mr b oc ab).2 →
          ∀ a, ab = some a → 2 * k < a)
    ∧ (∀ (mr b : Nat) (es : Nat → String),
        retryRun mr b (fun n => Except.error (es n)) none =
          (Except.error (es mr), (List.range (mr + 1)).flatMap
            (fun i => RetryEvent.attempt i ::
              if i < mr then [RetryEvent.wait i (b * 2 ^ i)] else [])))
    ∧ (∀ (mr b : Nat) (oc : Nat → Except String Nat),
        retryRun mr b oc (some 0) = (Except.error ("Request aborted"), [])) := by
  refine ⟨rfl, ?_, ?_, ?_, retryRun_pre_aborted⟩
  · intro mr b oc ab k ms hmem
    exact retryGo_wait_spec mr b oc ab (mr + 1) 0 "undefined" k ms hmem
  · intro mr b oc ab k hmem
    exact retryGo_attempt_spec mr b oc ab (mr + 1) 0 "undefined" k hmem
  · intro mr b es
    have h := retryGo_all_fail mr b es mr 0 "undefined" (by omega)
    simpa [retryRun, List.range_eq_range'] using h

theorem C7_retry_middleware_witness :
    200 = 100 * 2 ^ 1 ∧ ∀ a : Nat, (none : Option Nat) = some a → 2 * 1 + 1 < a :=
  C7_retry_middleware.2.1 2 100
    (fun k => if k < 2 then .error ("fail" ++ toString k) else .ok 42) none 1 200
    (by decide)

end ModelGate
